import Mathlib

/-!
Shallow embedding of the header ingestion-and-persistence core
(crates/primitives/src/header.rs and bin/naive/src/storage/postgres/{header,head}.rs).

Modelling conventions:
* Fixed-width hash-like values (H256, H160, H64, Bloom) are modelled by their
  numeric value as a `Nat`; byte strings by `List Nat`.
* `U256` is a `Nat`; `as_u64` aborts (models a Rust panic) when the value does
  not fit in 64 bits, mirroring `primitive_types::U256::as_u64`.
* A Rust panic is the `none` of an outer `Option` layer around the result.
* Text columns holding hash-like values are three-valued (`HexText`):
  `canonical v` is a full-length hex rendering of `v`, which `from_str`
  accepts; `display v` is the truncated fixed-hash `Display` rendering of
  `v` (first and last two bytes around an ellipsis), which `to_string()`
  produces and `from_str` rejects; `junk` is any other rejected text.  Equal
  values render to equal display texts; a truncation collision between
  distinct values is not modelled.
* The `extra_data` hex text pair is modelled as encode/decode inverse.  The
  difficulty read-back models that `FromStr` on `U256` parses HEXADECIMAL,
  so the stored decimal rendering is reinterpreted digit-wise in base 16.
  Arbitrary-precision decimal columns (`BigDecimal`) are modelled by `Int`.
-/

deriving instance DecidableEq for Except

set_option maxRecDepth 10000

namespace Indexer

/-- Numeric value of a 32-byte hash (ethers `H256`). -/
abbrev H256 := Nat

/-- Numeric value of a 20-byte address (ethers `H160`). -/
abbrev H160 := Nat

/-- Numeric value of an 8-byte value (ethers `H64`). -/
abbrev H64 := Nat

/-- Numeric value of a 256-byte bloom filter (ethers `Bloom`). -/
abbrev Bloom := Nat

/-- Variable-length byte string (ethers `Bytes`). -/
abbrev Bytes := List Nat

/-- Value of a 256-bit unsigned integer (ethers `U256`). -/
abbrev U256 := Nat

/-- A block hash (`primitives::BlockHash`). -/
abbrev BlockHash := H256

/-- A block number (`primitives::BlockNumber`, a `u64`). -/
abbrev BlockNumber := Nat

/-- Model of `U256::as_u64`: the value, or an abort (`none`, modelling the
panic) when it exceeds `u64::MAX`. -/
def u256_as_u64 (n : U256) : Option Nat :=
  if n < 2 ^ 64 then some n else none

/-- Raw block record, the fields of `ethers_core::types::Block<H256>` that the
conversion reads.  Field optionality follows the ethers type: `hash`, `author`,
`number`, `logs_bloom`, `size`, `mix_hash`, `nonce` and `base_fee_per_gas` are
optional; `number` is a 64-bit `U64`, the other numeric fields are `U256`. -/
structure Block where
  hash : Option H256
  parent_hash : H256
  uncles_hash : H256
  author : Option H160
  state_root : H256
  transactions_root : H256
  receipts_root : H256
  number : Option Nat
  gas_used : U256
  gas_limit : U256
  extra_data : Bytes
  logs_bloom : Option Bloom
  timestamp : U256
  difficulty : U256
  size : Option U256
  mix_hash : Option H256
  nonce : Option H64
  base_fee_per_gas : Option U256
deriving DecidableEq, Repr

/-- Block header entity (`primitives::Header`). -/
structure Header where
  hash : BlockHash
  parent_hash : BlockHash
  uncles_hash : BlockHash
  author : H160
  state_root : H256
  transactions_root : H256
  receipts_root : H256
  number : BlockNumber
  gas_used : Nat
  gas_limit : Nat
  extra_data : Bytes
  logs_bloom : Bloom
  timestamp : Nat
  difficulty : U256
  size : Nat
  mix_hash : H256
  nonce : H64
  base_fee_per_gas : Option Nat
deriving DecidableEq, Repr

/-- Slimmed down version of `Header` (`primitives::Head`). -/
structure Head where
  hash : BlockHash
  number : BlockNumber
  parent_hash : BlockHash
  timestamp : Nat
deriving DecidableEq, Repr

/-- Validation errors of `TryFrom<&Block<H256>> for Header`
(`primitives::InvalidBlockError`). -/
inductive InvalidBlockError where
  | MissingHash
  | MissingAuthor
  | MissingNumber
  | MissingLogsBloom
  | MissingSize
  | MissingMixHash
  | MissingNonce
deriving DecidableEq, Repr

/-- Model of `impl TryFrom<&Block<H256>> for Header` (header.rs lines 89-154).
The outer `Option` is `none` exactly when the Rust code panics (an `as_u64`
on a value exceeding `u64::MAX`); otherwise the `Except` carries the Rust
`Result`.  The order of the matches follows the source: the four leading
mandatory-field checks, then the `base_fee_per_gas` narrowing, then the
`size` check-and-narrow, then `mix_hash` and `nonce`, and finally the
narrowings performed inside the `Ok(Header { .. })` literal. -/
def Header.tryFromBlock (block : Block) : Option (Except InvalidBlockError Header) :=
  match block.hash with
  | none => some (Except.error InvalidBlockError.MissingHash)
  | some hash =>
  match block.author with
  | none => some (Except.error InvalidBlockError.MissingAuthor)
  | some author =>
  match block.number with
  | none => some (Except.error InvalidBlockError.MissingNumber)
  | some number =>
  match block.logs_bloom with
  | none => some (Except.error InvalidBlockError.MissingLogsBloom)
  | some logs_bloom =>
  match (match block.base_fee_per_gas with
         | some v => (u256_as_u64 v).map some
         | none => some none) with
  | none => none
  | some base_fee_per_gas =>
  match block.size with
  | none => some (Except.error InvalidBlockError.MissingSize)
  | some size0 =>
  match u256_as_u64 size0 with
  | none => none
  | some size =>
  match block.mix_hash with
  | none => some (Except.error InvalidBlockError.MissingMixHash)
  | some mix_hash =>
  match block.nonce with
  | none => some (Except.error InvalidBlockError.MissingNonce)
  | some nonce =>
  match u256_as_u64 block.gas_used with
  | none => none
  | some gas_used =>
  match u256_as_u64 block.gas_limit with
  | none => none
  | some gas_limit =>
  match u256_as_u64 block.timestamp with
  | none => none
  | some timestamp =>
  some (Except.ok
    { hash := hash
      parent_hash := block.parent_hash
      uncles_hash := block.uncles_hash
      author := author
      state_root := block.state_root
      transactions_root := block.transactions_root
      receipts_root := block.receipts_root
      number := number
      gas_used := gas_used
      gas_limit := gas_limit
      extra_data := block.extra_data
      logs_bloom := logs_bloom
      timestamp := timestamp
      difficulty := block.difficulty
      size := size
      mix_hash := mix_hash
      nonce := nonce
      base_fee_per_gas := base_fee_per_gas })

/-- Model of `impl From<&Header> for Head` (header.rs lines 156-165). -/
def Head.fromHeader (header : Header) : Head :=
  { hash := header.hash
    number := header.number
    parent_hash := header.parent_hash
    timestamp := header.timestamp }

/-- Contents of a text column holding a hash-like value (H256, H160, H64,
Bloom).  `canonical v` is a full-length hex rendering of the value `v`,
which `from_str` accepts; `display v` is the truncated fixed-hash `Display`
rendering of `v` (first and last two bytes around an ellipsis), the text
`to_string()` produces and `from_str` rejects; `junk` is any other text the
parser rejects.  Equal values render to equal display texts; a truncation
collision between distinct values is not modelled. -/
inductive HexText where
  | canonical (v : Nat)
  | display (v : Nat)
  | junk
deriving DecidableEq, Repr

/-- Model of `from_str` on a hash-like text column: only a full-length
canonical rendering parses; the truncated display rendering and junk are
rejected. -/
def from_str_hex : HexText → Option Nat
  | HexText.canonical v => some v
  | HexText.display _ => none
  | HexText.junk => none

/-- Contents of the `extra_data` text column, holding hex-encoded bytes. -/
abbrev BytesText := Option Bytes

/-- An arbitrary-precision decimal column value.  The rows this program
writes and the claims at hand only involve integral values, so the model is
`Int`. -/
abbrev BigDecimal := Int

/-- Model of `bigdecimal::ToPrimitive::to_u64`: `some` exactly when the value
is a non-negative integer fitting in 64 bits. -/
def bigdecimal_to_u64 (d : BigDecimal) : Option Nat :=
  if 0 ≤ d ∧ d < 2 ^ 64 then some d.toNat else none

/-- Model of `BigDecimal::from_u64`, total on `u64` (the Rust `Option` is
always `Some` there). -/
def bigdecimal_from_u64 (n : Nat) : BigDecimal :=
  Int.ofNat n

/-- Digit-wise reinterpretation of the decimal numeral of a number in base
16, with explicit fuel so that it evaluates by kernel reduction; the fuel of
`dec_digits_as_hex` bounds the digit count. -/
def dec_digits_as_hex_aux : Nat → Nat → Nat
  | 0, _ => 0
  | fuel + 1, n =>
    if n = 0 then 0 else dec_digits_as_hex_aux fuel (n / 10) * 16 + n % 10

/-- Decimal numeral of `n` read back as a hexadecimal numeral (13, rendered
as the text 13, reads back as 0x13 = 19). -/
def dec_digits_as_hex (n : Nat) : Nat :=
  dec_digits_as_hex_aux n n

/-- Model of `U256::from_str(&bigdecimal.to_string())` on the difficulty
column.  `FromStr` on `U256` parses HEXADECIMAL, so the stored decimal
rendering is reinterpreted digit-wise in base 16; renderings longer than 64
characters (values of 65 or more decimal digits) and negative renderings
are rejected. -/
def u256_from_dec_text (d : BigDecimal) : Option U256 :=
  if 0 ≤ d ∧ d < ((10 ^ 64 : Nat) : Int) then some (dec_digits_as_hex d.toNat)
  else none

/-- Model of `BigDecimal::from_str(&u256.to_string())`, the write-side
difficulty conversion; parsing a rendered `U256` never fails. -/
def bigdecimal_from_u256 (n : U256) : BigDecimal :=
  Int.ofNat n

/-- Row of the `headers` table (`storage::postgres::header::DBHeader`). -/
structure DBHeader where
  hash : HexText
  parent_hash : HexText
  uncles_hash : HexText
  author : HexText
  state_root : HexText
  transactions_root : HexText
  receipts_root : HexText
  number : BigDecimal
  gas_used : BigDecimal
  gas_limit : BigDecimal
  extra_data : BytesText
  logs_bloom : HexText
  timestamp : BigDecimal
  difficulty : BigDecimal
  size : BigDecimal
  mix_hash : HexText
  nonce : HexText
  base_fee_per_gas : Option BigDecimal
deriving DecidableEq, Repr

/-- Row-validation errors (`storage::postgres::header::ParseDBHeaderError`),
thirteen variants as in the source. -/
inductive ParseDBHeaderError where
  | HashInvalid
  | ParentHashInvalid
  | UnclesHashInvalid
  | BlockNumberInvalid
  | TimestampInvalid
  | AuthorInvalid
  | StateRootInvalid
  | TransactionRootInvalid
  | ReceiptsRootInvalid
  | GasUsedInvalid
  | GasLimitInvalid
  | ExtraDataInvalid
  | BaseFeePerGasInvalid
deriving DecidableEq, Repr

/-- Model of `impl TryFrom<&DBHeader> for Header` (postgres/header.rs lines
82-196), branch for branch with the error mapping of the source.  Hash-like
columns go through `from_str`, which rejects truncated display texts: a
failing `logs_bloom` parse yields `ExtraDataInvalid`, failing `difficulty`, `size`,
`mix_hash` and `nonce` yield `TimestampInvalid`, and a `base_fee_per_gas`
that does not narrow hits `to_u64().unwrap()`, an abort (outer `none`). -/
def Header.tryFromDBHeader (header : DBHeader) : Option (Except ParseDBHeaderError Header) :=
  match from_str_hex header.hash with
  | none => some (Except.error ParseDBHeaderError.HashInvalid)
  | some hash =>
  match from_str_hex header.parent_hash with
  | none => some (Except.error ParseDBHeaderError.ParentHashInvalid)
  | some parent_hash =>
  match from_str_hex header.uncles_hash with
  | none => some (Except.error ParseDBHeaderError.UnclesHashInvalid)
  | some uncles_hash =>
  match from_str_hex header.author with
  | none => some (Except.error ParseDBHeaderError.AuthorInvalid)
  | some author =>
  match from_str_hex header.state_root with
  | none => some (Except.error ParseDBHeaderError.StateRootInvalid)
  | some state_root =>
  match from_str_hex header.transactions_root with
  | none => some (Except.error ParseDBHeaderError.TransactionRootInvalid)
  | some transactions_root =>
  match from_str_hex header.receipts_root with
  | none => some (Except.error ParseDBHeaderError.ReceiptsRootInvalid)
  | some receipts_root =>
  match bigdecimal_to_u64 header.number with
  | none => some (Except.error ParseDBHeaderError.BlockNumberInvalid)
  | some number =>
  match bigdecimal_to_u64 header.gas_used with
  | none => some (Except.error ParseDBHeaderError.GasUsedInvalid)
  | some gas_used =>
  match bigdecimal_to_u64 header.gas_limit with
  | none => some (Except.error ParseDBHeaderError.GasLimitInvalid)
  | some gas_limit =>
  match header.extra_data with
  | none => some (Except.error ParseDBHeaderError.ExtraDataInvalid)
  | some extra_data =>
  match from_str_hex header.logs_bloom with
  | none => some (Except.error ParseDBHeaderError.ExtraDataInvalid)
  | some logs_bloom =>
  match bigdecimal_to_u64 header.timestamp with
  | none => some (Except.error ParseDBHeaderError.TimestampInvalid)
  | some timestamp =>
  match u256_from_dec_text header.difficulty with
  | none => some (Except.error ParseDBHeaderError.TimestampInvalid)
  | some difficulty =>
  match bigdecimal_to_u64 header.size with
  | none => some (Except.error ParseDBHeaderError.TimestampInvalid)
  | some size =>
  match from_str_hex header.mix_hash with
  | none => some (Except.error ParseDBHeaderError.TimestampInvalid)
  | some mix_hash =>
  match from_str_hex header.nonce with
  | none => some (Except.error ParseDBHeaderError.TimestampInvalid)
  | some nonce =>
  match (match header.base_fee_per_gas with
         | some v => (bigdecimal_to_u64 v).map some
         | none => some none) with
  | none => none
  | some base_fee_per_gas =>
  some (Except.ok
    { hash := hash
      parent_hash := parent_hash
      uncles_hash := uncles_hash
      author := author
      state_root := state_root
      transactions_root := transactions_root
      receipts_root := receipts_root
      number := number
      gas_used := gas_used
      gas_limit := gas_limit
      extra_data := extra_data
      logs_bloom := logs_bloom
      timestamp := timestamp
      difficulty := difficulty
      size := size
      mix_hash := mix_hash
      nonce := nonce
      base_fee_per_gas := base_fee_per_gas })

/-- Row built by the `INSERT` of `save_header` (postgres/header.rs lines
245-291), value for value in the column order of the source.  Every
hash-like text column holds the `to_string()` rendering, i.e. the truncated
fixed-hash `Display` text, and the fifteenth column, `size`, is populated
from `header.timestamp` exactly as in the source (line 285). -/
def dbHeaderOfHeader (header : Header) : DBHeader :=
  { hash := HexText.display header.hash
    parent_hash := HexText.display header.parent_hash
    uncles_hash := HexText.display header.uncles_hash
    author := HexText.display header.author
    state_root := HexText.display header.state_root
    transactions_root := HexText.display header.transactions_root
    receipts_root := HexText.display header.receipts_root
    number := bigdecimal_from_u64 header.number
    gas_used := bigdecimal_from_u64 header.gas_used
    gas_limit := bigdecimal_from_u64 header.gas_limit
    extra_data := some header.extra_data
    logs_bloom := HexText.display header.logs_bloom
    timestamp := bigdecimal_from_u64 header.timestamp
    difficulty := bigdecimal_from_u256 header.difficulty
    size := bigdecimal_from_u64 header.timestamp
    mix_hash := HexText.display header.mix_hash
    nonce := HexText.display header.nonce
    base_fee_per_gas := header.base_fee_per_gas.map bigdecimal_from_u64 }

/-- State of the `headers` table, rows in insertion order; the `hash` column
carries a unique constraint maintained by the insert below. -/
abbrev HeadersTable := List DBHeader

/-- Model of `PostgresHeaderStorage::save_header`: `INSERT ... ON CONFLICT
(hash) DO NOTHING` — the row is appended unless a row with the same hash
text already exists, in which case the table is unchanged. -/
def save_header (table : HeadersTable) (header : Header) : HeadersTable :=
  if table.any (fun row => row.hash == HexText.display header.hash) then table
  else table ++ [dbHeaderOfHeader header]

/-- Model of `PostgresHeaderStorage::header_by_hash`: point lookup by hash
text equality, `RowNotFound` mapped to `ok none`, then row validation; an
outer `none` is an abort inside the row conversion. -/
def header_by_hash (table : HeadersTable) (hash : BlockHash) :
    Option (Except ParseDBHeaderError (Option Header)) :=
  match table.find? (fun row => row.hash == HexText.display hash) with
  | none => some (Except.ok none)
  | some row =>
    match Header.tryFromDBHeader row with
    | none => none
    | some (Except.error e) => some (Except.error e)
    | some (Except.ok h) => some (Except.ok (some h))

/-- Row shape read by the head query (`storage::postgres::head::DBHead`). -/
structure DBHead where
  hash : HexText
  number : BigDecimal
  parent_hash : HexText
  timestamp : BigDecimal
deriving DecidableEq, Repr

/-- Head-row validation errors (`storage::postgres::head::ParseDBHeadError`). -/
inductive ParseDBHeadError where
  | InvalidHash
  | InvalidParentHash
  | InvalidBlockNumber
  | InvalidTimestamp
deriving DecidableEq, Repr

/-- Model of `impl TryFrom<&DBHead> for Head` (postgres/head.rs lines 37-68). -/
def Head.tryFromDBHead (head : DBHead) : Except ParseDBHeadError Head :=
  match from_str_hex head.hash with
  | none => Except.error ParseDBHeadError.InvalidHash
  | some hash =>
  match bigdecimal_to_u64 head.number with
  | none => Except.error ParseDBHeadError.InvalidBlockNumber
  | some number =>
  match from_str_hex head.parent_hash with
  | none => Except.error ParseDBHeadError.InvalidParentHash
  | some parent_hash =>
  match bigdecimal_to_u64 head.timestamp with
  | none => Except.error ParseDBHeadError.InvalidTimestamp
  | some timestamp =>
  Except.ok
    { hash := hash
      parent_hash := parent_hash
      timestamp := timestamp
      number := number }

/-- Projection of a `headers` row onto the four columns the head query
selects (`SELECT hash, number, parent_hash, timestamp FROM headers`). -/
def dbHeadOfRow (row : DBHeader) : DBHead :=
  { hash := row.hash
    number := row.number
    parent_hash := row.parent_hash
    timestamp := row.timestamp }

/-- Model of `ORDER BY number DESC LIMIT 1`: a row whose `number` is maximal
in the table (the first such row; ties are unspecified in the source, the
model fixes one choice). -/
def bestRow : HeadersTable → Option DBHeader
  | [] => none
  | row :: rest =>
    match bestRow rest with
    | none => some row
    | some best => if row.number < best.number then some best else some row

/-- Model of `PostgresHeadStorage::head`: the single row of the descending
query if any, `RowNotFound` mapped to `ok none`, then head-row validation. -/
def head (table : HeadersTable) : Except ParseDBHeadError (Option Head) :=
  match bestRow table with
  | none => Except.ok none
  | some row =>
    match Head.tryFromDBHead (dbHeadOfRow row) with
    | Except.error e => Except.error e
    | Except.ok h => Except.ok (some h)

/-- Table obtained by saving a list of headers, in order, into an initially
empty store. -/
def savedTable (headers : List Header) : HeadersTable :=
  headers.foldl save_header []

/-- Mandatory-field errors of a raw block, one entry per absent mandatory
field, listed in the order the conversion checks them: hash, author, number,
logs bloom, size, mix hash, nonce. -/
def mandatoryErrors (b : Block) : List InvalidBlockError :=
  (if b.hash.isNone then [InvalidBlockError.MissingHash] else []) ++
  (if b.author.isNone then [InvalidBlockError.MissingAuthor] else []) ++
  (if b.number.isNone then [InvalidBlockError.MissingNumber] else []) ++
  (if b.logs_bloom.isNone then [InvalidBlockError.MissingLogsBloom] else []) ++
  (if b.size.isNone then [InvalidBlockError.MissingSize] else []) ++
  (if b.mix_hash.isNone then [InvalidBlockError.MissingMixHash] else []) ++
  (if b.nonce.isNone then [InvalidBlockError.MissingNonce] else [])

/-- A sample header with every field distinct; its `size` (100) differs from
its `timestamp` (200). -/
def sampleHeader : Header :=
  { hash := 1, parent_hash := 2, uncles_hash := 3, author := 4, state_root := 5,
    transactions_root := 6, receipts_root := 7, number := 8, gas_used := 9,
    gas_limit := 10, extra_data := [11], logs_bloom := 12, timestamp := 200,
    difficulty := 13, size := 100, mix_hash := 14, nonce := 15,
    base_fee_per_gas := some 16 }

/-- A database row in which every column is well-formed (all hash-like
texts full-length canonical renderings). -/
def sampleRow : DBHeader :=
  { hash := HexText.canonical 1, parent_hash := HexText.canonical 2,
    uncles_hash := HexText.canonical 3, author := HexText.canonical 4,
    state_root := HexText.canonical 5, transactions_root := HexText.canonical 6,
    receipts_root := HexText.canonical 7,
    number := 8, gas_used := 9, gas_limit := 10, extra_data := some [11],
    logs_bloom := HexText.canonical 12, timestamp := 200, difficulty := 13,
    size := 100, mix_hash := HexText.canonical 14, nonce := HexText.canonical 15,
    base_fee_per_gas := some 16 }

/-- A raw block in which every field, optional ones included, is present and
fits its target width. -/
def sampleBlock : Block :=
  { hash := some 1, parent_hash := 2, uncles_hash := 3, author := some 4,
    state_root := 5, transactions_root := 6, receipts_root := 7, number := some 8,
    gas_used := 9, gas_limit := 10, extra_data := [11], logs_bloom := some 12,
    timestamp := 200, difficulty := 13, size := some 100, mix_hash := some 14,
    nonce := some 15, base_fee_per_gas := some 16 }

/-- Sample header with block number 5. -/
def hdr5 : Header := { sampleHeader with hash := 50, number := 5 }

/-- Sample header with block number 12. -/
def hdr12 : Header := { sampleHeader with hash := 120, number := 12 }

/-- Sample header with block number 7. -/
def hdr7 : Header := { sampleHeader with hash := 70, number := 7 }

/-- C1: the round trip fails outright: `save_header` stores the truncated
`Display` rendering of every hash-like field, which `from_str` rejects on
read-back, so retrieving a saved header by its hash returns `HashInvalid`
rather than a field-for-field equal header.  Independently, the INSERT
populates the `size` column from `header.timestamp` (line 285), so not even
the stored row carries the original `size`. -/
theorem save_roundtrip_fails_readback :
    header_by_hash (save_header [] sampleHeader) sampleHeader.hash
      = some (Except.error ParseDBHeaderError.HashInvalid)
    ∧ (dbHeaderOfHeader sampleHeader).size = bigdecimal_from_u64 sampleHeader.timestamp
    ∧ sampleHeader.size ≠ sampleHeader.timestamp := by
  decide

/-- C2: a stored `base_fee_per_gas` of 2^64 does not fit a `u64`; the row
conversion hits `to_u64().unwrap()` and aborts (`none`) instead of returning
`BaseFeePerGasInvalid`; moreover an oversized `size` column is reported as
`TimestampInvalid`, not as a size error. -/
theorem basefee_overflow_aborts_readback :
    Header.tryFromDBHeader { sampleRow with base_fee_per_gas := some (2 ^ 64) } = none
    ∧ Header.tryFromDBHeader { sampleRow with size := 2 ^ 64 }
      = some (Except.error ParseDBHeaderError.TimestampInvalid) := by
  decide

/-- C4: two different single-field decode failures (logs bloom vs extra data)
yield the identical error `ExtraDataInvalid`, and three more (difficulty, mix
hash, nonce) all yield `TimestampInvalid`, so the failing field is not
identifiable from the error alone. -/
theorem row_errors_not_field_identifying :
    Header.tryFromDBHeader { sampleRow with logs_bloom := HexText.junk }
      = some (Except.error ParseDBHeaderError.ExtraDataInvalid)
    ∧ Header.tryFromDBHeader { sampleRow with extra_data := none }
      = some (Except.error ParseDBHeaderError.ExtraDataInvalid)
    ∧ Header.tryFromDBHeader { sampleRow with difficulty := -1 }
      = some (Except.error ParseDBHeaderError.TimestampInvalid)
    ∧ Header.tryFromDBHeader { sampleRow with mix_hash := HexText.junk }
      = some (Except.error ParseDBHeaderError.TimestampInvalid)
    ∧ Header.tryFromDBHeader { sampleRow with nonce := HexText.junk }
      = some (Except.error ParseDBHeaderError.TimestampInvalid) := by
  decide

/-- C3 counterexample: with every field present, a `size` of 2^64 makes the
conversion abort (`none`) instead of returning a validation error, although
an absent `size` does return `MissingSize`. -/
theorem oversized_size_aborts_not_errors :
    Header.tryFromBlock { sampleBlock with size := some (2 ^ 64) } = none
    ∧ Header.tryFromBlock { sampleBlock with size := none }
      = some (Except.error InvalidBlockError.MissingSize) := by
  decide

/-- C5 counterexample: a raw block missing only `size` but carrying a present
`base_fee_per_gas` of 2^64 makes the conversion abort (`none`) rather than
return `MissingSize`: the base-fee narrowing runs before the size check. -/
theorem missing_size_oversized_basefee_aborts :
    Header.tryFromBlock { sampleBlock with size := none, base_fee_per_gas := some (2 ^ 64) }
      = none := by
  decide

/-- C9: on an empty store, `head` and `header_by_hash` (for every hash) both
return an empty result and no error. -/
theorem empty_store_not_found :
    head ([] : HeadersTable) = Except.ok none
    ∧ ∀ hash : BlockHash, header_by_hash [] hash = some (Except.ok none) := by
  exact ⟨rfl, fun _ => rfl⟩

/-- C8: save is idempotent on hash conflict: when a row with the same hash
text is already present, `save_header` leaves the table (and hence every
`header_by_hash` observation) unchanged, and saving the same header twice
equals saving it once. -/
theorem save_header_idempotent :
    (∀ (table : HeadersTable) (h2 : Header),
      (∃ row ∈ table, row.hash = HexText.display h2.hash) →
      save_header table h2 = table ∧
      ∀ q, header_by_hash (save_header table h2) q = header_by_hash table q) ∧
    (∀ (table : HeadersTable) (h : Header),
      save_header (save_header table h) h = save_header table h) := by
  have hone : ∀ (table : HeadersTable) (h2 : Header),
      (∃ row ∈ table, row.hash = HexText.display h2.hash) → save_header table h2 = table := by
    intro table h2 hex
    rcases hex with ⟨row, hmem, hhash⟩
    have hany : table.any (fun row => row.hash == HexText.display h2.hash) = true :=
      List.any_eq_true.mpr ⟨row, hmem, by simp [hhash]⟩
    simp [save_header, hany]
  refine ⟨fun table h2 hex => ⟨hone table h2 hex, fun q => by rw [hone table h2 hex]⟩, ?_⟩
  intro table h
  by_cases hany : table.any (fun row => row.hash == HexText.display h.hash) = true
  · simp [save_header, hany]
  · have h1 : save_header table h = table ++ [dbHeaderOfHeader h] := by
      simp [save_header, hany]
    rw [h1]
    apply hone
    exact ⟨dbHeaderOfHeader h, by simp, rfl⟩

/-- Narrowing a value that fits succeeds with the same value. -/
theorem u256_as_u64_of_lt {n : U256} (h : n < 2 ^ 64) : u256_as_u64 n = some n := by
  simp only [u256_as_u64]
  exact if_pos h

/-- Narrowing a value that does not fit aborts. -/
theorem u256_as_u64_of_ge {n : U256} (h : ¬ n < 2 ^ 64) : u256_as_u64 n = none := by
  simp only [u256_as_u64]
  exact if_neg h

/-- Successful evaluation of `Header.tryFromBlock` on a block with all seven
mandatory fields present whose present `U256` numeric fields all fit in 64
bits: the conversion copies every field (narrowing is the identity on values
that fit). -/
theorem tryFromBlock_ok {hv : H256} {f2 f3 : H256} {av : H160} {f5 f6 f7 : H256}
    {nv : Nat} {f9 f10 : U256} {f11 : Bytes} {lv : Bloom} {f13 f14 : U256}
    {sv : U256} {mv : H256} {nov : H64} {f18 : Option U256}
    (hbf : ∀ v, f18 = some v → v < 2 ^ 64) (hsv : sv < 2 ^ 64)
    (h9 : f9 < 2 ^ 64) (h10 : f10 < 2 ^ 64) (h13 : f13 < 2 ^ 64) :
    Header.tryFromBlock
      ⟨some hv, f2, f3, some av, f5, f6, f7, some nv, f9, f10, f11, some lv,
        f13, f14, some sv, some mv, some nov, f18⟩ =
    some (Except.ok
      ⟨hv, f2, f3, av, f5, f6, f7, nv, f9, f10, f11, lv, f13, f14, sv, mv, nov, f18⟩) := by
  rcases f18 with _ | bf
  · simp [Header.tryFromBlock, u256_as_u64_of_lt hsv, u256_as_u64_of_lt h9,
      u256_as_u64_of_lt h10, u256_as_u64_of_lt h13]
  · simp [Header.tryFromBlock, u256_as_u64_of_lt (hbf bf rfl), u256_as_u64_of_lt hsv,
      u256_as_u64_of_lt h9, u256_as_u64_of_lt h10, u256_as_u64_of_lt h13]

/-- Aborting evaluation of `Header.tryFromBlock`: with all seven mandatory
fields present, any present `U256` numeric field exceeding 64 bits makes the
conversion abort. -/
theorem tryFromBlock_overflow_aborts {hv : H256} {f2 f3 : H256} {av : H160} {f5 f6 f7 : H256}
    {nv : Nat} {f9 f10 : U256} {f11 : Bytes} {lv : Bloom} {f13 f14 : U256}
    {sv : U256} {mv : H256} {nov : H64} {f18 : Option U256}
    (hbad : (∃ v, f18 = some v ∧ 2 ^ 64 ≤ v) ∨ 2 ^ 64 ≤ sv ∨ 2 ^ 64 ≤ f9 ∨
      2 ^ 64 ≤ f10 ∨ 2 ^ 64 ≤ f13) :
    Header.tryFromBlock
      ⟨some hv, f2, f3, some av, f5, f6, f7, some nv, f9, f10, f11, some lv,
        f13, f14, some sv, some mv, some nov, f18⟩ = none := by
  by_cases hbf : ∀ v, f18 = some v → v < 2 ^ 64
  · by_cases hsv : sv < 2 ^ 64
    · by_cases h9 : f9 < 2 ^ 64
      · by_cases h10 : f10 < 2 ^ 64
        · have h13 : 2 ^ 64 ≤ f13 := by
            rcases hbad with ⟨v, hveq, hvge⟩ | h | h | h | h
            · exact absurd hvge (Nat.not_le.mpr (hbf v hveq))
            · exact absurd h (Nat.not_le.mpr hsv)
            · exact absurd h (Nat.not_le.mpr h9)
            · exact absurd h (Nat.not_le.mpr h10)
            · exact h
          rcases f18 with _ | bf
          · simp [Header.tryFromBlock, u256_as_u64_of_lt hsv, u256_as_u64_of_lt h9,
              u256_as_u64_of_lt h10, u256_as_u64_of_ge (Nat.not_lt.mpr h13)]
          · simp [Header.tryFromBlock, u256_as_u64_of_lt (hbf bf rfl),
              u256_as_u64_of_lt hsv, u256_as_u64_of_lt h9, u256_as_u64_of_lt h10,
              u256_as_u64_of_ge (Nat.not_lt.mpr h13)]
        · rcases f18 with _ | bf
          · simp [Header.tryFromBlock, u256_as_u64_of_lt hsv, u256_as_u64_of_lt h9,
              u256_as_u64_of_ge h10]
          · simp [Header.tryFromBlock, u256_as_u64_of_lt (hbf bf rfl),
              u256_as_u64_of_lt hsv, u256_as_u64_of_lt h9, u256_as_u64_of_ge h10]
      · rcases f18 with _ | bf
        · simp [Header.tryFromBlock, u256_as_u64_of_lt hsv, u256_as_u64_of_ge h9]
        · simp [Header.tryFromBlock, u256_as_u64_of_lt (hbf bf rfl),
            u256_as_u64_of_lt hsv, u256_as_u64_of_ge h9]
    · rcases f18 with _ | bf
      · simp [Header.tryFromBlock, u256_as_u64_of_ge hsv]
      · simp [Header.tryFromBlock, u256_as_u64_of_lt (hbf bf rfl), u256_as_u64_of_ge hsv]
  · push_neg at hbf
    rcases hbf with ⟨v, hveq, hvge⟩
    subst hveq
    simp [Header.tryFromBlock, u256_as_u64_of_ge (Nat.not_lt.mpr hvge)]

/-- On a block with all seven mandatory fields present the conversion either
aborts or succeeds with every field copied; it never returns an error. -/
theorem tryFromBlock_cases {hv : H256} {f2 f3 : H256} {av : H160} {f5 f6 f7 : H256}
    {nv : Nat} {f9 f10 : U256} {f11 : Bytes} {lv : Bloom} {f13 f14 : U256}
    {sv : U256} {mv : H256} {nov : H64} {f18 : Option U256} :
    Header.tryFromBlock
      ⟨some hv, f2, f3, some av, f5, f6, f7, some nv, f9, f10, f11, some lv,
        f13, f14, some sv, some mv, some nov, f18⟩ = none ∨
    Header.tryFromBlock
      ⟨some hv, f2, f3, some av, f5, f6, f7, some nv, f9, f10, f11, some lv,
        f13, f14, some sv, some mv, some nov, f18⟩ =
    some (Except.ok
      ⟨hv, f2, f3, av, f5, f6, f7, nv, f9, f10, f11, lv, f13, f14, sv, mv, nov, f18⟩) := by
  by_cases hbf : ∀ v, f18 = some v → v < 2 ^ 64
  · by_cases hsv : sv < 2 ^ 64
    · by_cases h9 : f9 < 2 ^ 64
      · by_cases h10 : f10 < 2 ^ 64
        · by_cases h13 : f13 < 2 ^ 64
          · exact Or.inr (tryFromBlock_ok hbf hsv h9 h10 h13)
          · exact Or.inl (tryFromBlock_overflow_aborts
              (Or.inr (Or.inr (Or.inr (Or.inr (Nat.le_of_not_lt h13))))))
        · exact Or.inl (tryFromBlock_overflow_aborts
            (Or.inr (Or.inr (Or.inr (Or.inl (Nat.le_of_not_lt h10))))))
      · exact Or.inl (tryFromBlock_overflow_aborts
          (Or.inr (Or.inr (Or.inl (Nat.le_of_not_lt h9)))))
    · exact Or.inl (tryFromBlock_overflow_aborts (Or.inr (Or.inl (Nat.le_of_not_lt hsv))))
  · push_neg at hbf
    rcases hbf with ⟨v, hveq, hvge⟩
    exact Or.inl (tryFromBlock_overflow_aborts (Or.inl ⟨v, hveq, hvge⟩))

/-- C10: with all seven mandatory fields present, the conversion never
returns a validation error (in particular an absent `base_fee_per_gas` never
fails validation), and any produced Header carries exactly the raw block
value of `base_fee_per_gas`, present iff present. -/
theorem basefee_optional_passthrough (b : Block) (hv av nv lv : Nat) (sv : U256)
    (mv nov : Nat)
    (hh : b.hash = some hv) (ha : b.author = some av) (hn : b.number = some nv)
    (hl : b.logs_bloom = some lv) (hs : b.size = some sv) (hm : b.mix_hash = some mv)
    (hno : b.nonce = some nov) :
    (∀ e, Header.tryFromBlock b ≠ some (Except.error e)) ∧
    (∀ h, Header.tryFromBlock b = some (Except.ok h) →
      h.base_fee_per_gas = b.base_fee_per_gas) := by
  obtain ⟨f1, f2, f3, f4, f5, f6, f7, f8, f9, f10, f11, f12, f13, f14, f15, f16, f17, f18⟩ := b
  simp only at hh ha hn hl hs hm hno
  subst hh ha hn hl hs hm hno
  rcases @tryFromBlock_cases hv f2 f3 av f5 f6 f7 nv f9 f10 f11 lv f13 f14 sv mv nov f18
    with hres | hres
  · rw [hres]
    exact ⟨fun e h => by simp at h, fun h hcontra => by simp at hcontra⟩
  · rw [hres]
    constructor
    · intro e hcontra
      simp at hcontra
    · intro h hok
      simp only [Option.some.injEq, Except.ok.injEq] at hok
      rw [← hok]

/-- C6: a raw block with all seven mandatory fields present and every present
numeric field fitting its target width converts successfully, and every field
of the produced Header equals the corresponding raw field (numeric fields
narrowed value-preservingly, the rest copied unchanged). -/
theorem wellformed_block_validates (b : Block) (hv av nv lv : Nat) (sv : U256)
    (mv nov : Nat)
    (hh : b.hash = some hv) (ha : b.author = some av) (hn : b.number = some nv)
    (hl : b.logs_bloom = some lv) (hs : b.size = some sv) (hm : b.mix_hash = some mv)
    (hno : b.nonce = some nov)
    (hbf : ∀ v, b.base_fee_per_gas = some v → v < 2 ^ 64) (hsv : sv < 2 ^ 64)
    (hgu : b.gas_used < 2 ^ 64) (hgl : b.gas_limit < 2 ^ 64)
    (hts : b.timestamp < 2 ^ 64) :
    Header.tryFromBlock b =
      some (Except.ok
        { hash := hv
          parent_hash := b.parent_hash
          uncles_hash := b.uncles_hash
          author := av
          state_root := b.state_root
          transactions_root := b.transactions_root
          receipts_root := b.receipts_root
          number := nv
          gas_used := b.gas_used
          gas_limit := b.gas_limit
          extra_data := b.extra_data
          logs_bloom := lv
          timestamp := b.timestamp
          difficulty := b.difficulty
          size := sv
          mix_hash := mv
          nonce := nov
          base_fee_per_gas := b.base_fee_per_gas }) := by
  obtain ⟨f1, f2, f3, f4, f5, f6, f7, f8, f9, f10, f11, f12, f13, f14, f15, f16, f17, f18⟩ := b
  simp only at hh ha hn hl hs hm hno hbf hgu hgl hts
  subst hh ha hn hl hs hm hno
  exact tryFromBlock_ok hbf hsv hgu hgl hts

/-- C3 (amended): with all seven mandatory fields present, a present `U256`
numeric field that does not fit in 64 bits makes the conversion abort (it
does not return a validation error), and whenever a Header is produced its
numeric fields carry exactly the raw values — never a truncation. -/
theorem narrowing_failure_aborts_only (b : Block) (hv av nv lv : Nat) (sv : U256)
    (mv nov : Nat)
    (hh : b.hash = some hv) (ha : b.author = some av) (hn : b.number = some nv)
    (hl : b.logs_bloom = some lv) (hs : b.size = some sv) (hm : b.mix_hash = some mv)
    (hno : b.nonce = some nov) :
    (((∃ v, b.base_fee_per_gas = some v ∧ 2 ^ 64 ≤ v) ∨ 2 ^ 64 ≤ sv ∨
        2 ^ 64 ≤ b.gas_used ∨ 2 ^ 64 ≤ b.gas_limit ∨ 2 ^ 64 ≤ b.timestamp) →
      Header.tryFromBlock b = none) ∧
    (∀ h, Header.tryFromBlock b = some (Except.ok h) →
      h.number = nv ∧ h.gas_used = b.gas_used ∧ h.gas_limit = b.gas_limit ∧
      h.timestamp = b.timestamp ∧ h.size = sv ∧ h.difficulty = b.difficulty ∧
      h.base_fee_per_gas = b.base_fee_per_gas) := by
  obtain ⟨f1, f2, f3, f4, f5, f6, f7, f8, f9, f10, f11, f12, f13, f14, f15, f16, f17, f18⟩ := b
  simp only at hh ha hn hl hs hm hno
  subst hh ha hn hl hs hm hno
  constructor
  · intro hbad
    exact tryFromBlock_overflow_aborts hbad
  · intro h hok
    rcases @tryFromBlock_cases hv f2 f3 av f5 f6 f7 nv f9 f10 f11 lv f13 f14 sv mv nov f18
      with hres | hres
    · rw [hres] at hok
      simp at hok
    · rw [hres] at hok
      simp only [Option.some.injEq, Except.ok.injEq] at hok
      rw [← hok]
      exact ⟨rfl, rfl, rfl, rfl, rfl, rfl, rfl⟩

/-- C5 (amended): provided every present optional numeric field
(`base_fee_per_gas`, `size`) fits in 64 bits, a raw block with absent
mandatory fields is rejected with the named error of the first absent field
in check order (hash, author, number, logs bloom, size, mix hash, nonce). -/
theorem missing_mandatory_first_error (b : Block) (e : InvalidBlockError)
    (hbf : ∀ v, b.base_fee_per_gas = some v → v < 2 ^ 64)
    (hsz : ∀ v, b.size = some v → v < 2 ^ 64)
    (hfirst : (mandatoryErrors b).head? = some e) :
    Header.tryFromBlock b = some (Except.error e) := by
  obtain ⟨f1, f2, f3, f4, f5, f6, f7, f8, f9, f10, f11, f12, f13, f14, f15, f16, f17, f18⟩ := b
  simp only at hbf hsz hfirst
  rcases f1 with _ | hv
  · simp [mandatoryErrors] at hfirst
    subst hfirst
    rfl
  rcases f4 with _ | av
  · simp [mandatoryErrors] at hfirst
    subst hfirst
    rfl
  rcases f8 with _ | nv
  · simp [mandatoryErrors] at hfirst
    subst hfirst
    rfl
  rcases f12 with _ | lv
  · simp [mandatoryErrors] at hfirst
    subst hfirst
    rfl
  rcases f15 with _ | sv
  · simp [mandatoryErrors] at hfirst
    subst hfirst
    rcases f18 with _ | bf
    · rfl
    · simp [Header.tryFromBlock, u256_as_u64_of_lt (hbf bf rfl)]
  rcases f16 with _ | mv
  · simp [mandatoryErrors] at hfirst
    subst hfirst
    rcases f18 with _ | bf
    · simp [Header.tryFromBlock, u256_as_u64_of_lt (hsz sv rfl)]
    · simp [Header.tryFromBlock, u256_as_u64_of_lt (hbf bf rfl),
        u256_as_u64_of_lt (hsz sv rfl)]
  rcases f17 with _ | nov
  · simp [mandatoryErrors] at hfirst
    subst hfirst
    rcases f18 with _ | bf
    · simp [Header.tryFromBlock, u256_as_u64_of_lt (hsz sv rfl)]
    · simp [Header.tryFromBlock, u256_as_u64_of_lt (hbf bf rfl),
        u256_as_u64_of_lt (hsz sv rfl)]
  · simp [mandatoryErrors] at hfirst

/-- bestRow is empty exactly on the empty table. -/
theorem bestRow_eq_none_iff (t : HeadersTable) : bestRow t = none ↔ t = [] := by
  induction t with
  | nil => simp [bestRow]
  | cons r rest ih =>
    cases hb : bestRow rest <;> simp [bestRow, hb]
    split <;> simp

/-- bestRow returns a member of the table. -/
theorem bestRow_mem {t : HeadersTable} {r : DBHeader} (h : bestRow t = some r) :
    r ∈ t := by
  induction t generalizing r with
  | nil => simp [bestRow] at h
  | cons r0 rest ih =>
    simp only [bestRow] at h
    cases hb : bestRow rest with
    | none =>
      rw [hb] at h
      have h2 : some r0 = some r := h
      injection h2 with h3
      subst h3
      exact List.mem_cons_self r0 rest
    | some b =>
      rw [hb] at h
      have h2 : (if r0.number < b.number then some b else some r0) = some r := h
      split_ifs at h2 with hlt <;> injection h2 with h3
      · exact h3 ▸ List.mem_cons_of_mem r0 (ih hb)
      · exact h3 ▸ List.mem_cons_self r0 rest

/-- bestRow returns a row of maximal number. -/
theorem bestRow_max {t : HeadersTable} {r : DBHeader} (h : bestRow t = some r) :
    ∀ x ∈ t, x.number ≤ r.number := by
  induction t generalizing r with
  | nil => simp [bestRow] at h
  | cons r0 rest ih =>
    intro x hx
    simp only [bestRow] at h
    cases hb : bestRow rest with
    | none =>
      rw [hb] at h
      have h2 : some r0 = some r := h
      injection h2 with h3
      subst h3
      rcases List.mem_cons.mp hx with hx0 | hxr
      · exact hx0 ▸ le_refl _
      · exact absurd ((bestRow_eq_none_iff rest).mp hb ▸ hxr) (List.not_mem_nil x)
    | some b =>
      rw [hb] at h
      have h2 : (if r0.number < b.number then some b else some r0) = some r := h
      rcases List.mem_cons.mp hx with hx0 | hxr
      · subst hx0
        split_ifs at h2 with hlt <;> injection h2 with h3 <;> subst h3
        · exact le_of_lt hlt
        · exact le_refl _
      · have hxb : x.number ≤ b.number := ih hb x hxr
        split_ifs at h2 with hlt <;> injection h2 with h3 <;> subst h3
        · exact hxb
        · exact le_trans hxb (le_of_not_lt hlt)

/-- Saving never shrinks the table. -/
theorem length_le_foldl_save (hs : List Header) (t : HeadersTable) :
    t.length ≤ (List.foldl save_header t hs).length := by
  induction hs generalizing t with
  | nil => simp
  | cons h rest ih =>
    refine le_trans ?_ (ih (save_header t h))
    by_cases hc : t.any (fun row => row.hash == HexText.display h.hash) = true <;>
      simp [save_header, hc]

/-- Every row of a table built by saves is the inserted row of one of the
saved headers. -/
theorem mem_foldl_save {row : DBHeader} (hs : List Header) (t : HeadersTable)
    (hmem : row ∈ List.foldl save_header t hs) :
    row ∈ t ∨ ∃ h ∈ hs, row = dbHeaderOfHeader h := by
  induction hs generalizing t with
  | nil => exact Or.inl hmem
  | cons h rest ih =>
    rcases ih (save_header t h) hmem with hin | ⟨h2, hh2, hrow⟩
    · by_cases hc : t.any (fun row => row.hash == HexText.display h.hash) = true
      · rw [save_header, if_pos hc] at hin
        exact Or.inl hin
      · rw [save_header, if_neg hc] at hin
        rcases List.mem_append.mp hin with hin | hin
        · exact Or.inl hin
        · exact Or.inr ⟨h, List.mem_cons_self h rest, List.mem_singleton.mp hin⟩
    · exact Or.inr ⟨h2, List.mem_cons_of_mem h hh2, hrow⟩

/-- Narrowing a written 64-bit value back out of the decimal column recovers
the value. -/
theorem bigdecimal_roundtrip {n : Nat} (hn : n < 2 ^ 64) :
    bigdecimal_to_u64 (bigdecimal_from_u64 n) = some n := by
  have hlt : ((n : Int)) < (2 : Int) ^ 64 := by exact_mod_cast hn
  rw [bigdecimal_to_u64, if_pos ⟨Int.ofNat_nonneg _, hlt⟩]
  simp [bigdecimal_from_u64]

/-- head query evaluation once the best row is known. -/
theorem head_eval {t : HeadersTable} {row : DBHeader} (hbr : bestRow t = some row) :
    head t = match Head.tryFromDBHead (dbHeadOfRow row) with
      | Except.error e => Except.error e
      | Except.ok h => Except.ok (some h) := by
  unfold head
  rw [hbr]

/-- C7: the head query fails on every nonempty saved store: the stored hash
text is the truncated `Display` rendering, which `BlockHash::from_str`
rejects on read-back, so `head` returns `InvalidHash` instead of the header
with the greatest number; on the empty store it returns an empty result.
In particular saving the headers numbered 5, 12 and 7 yields `InvalidHash`,
not the header numbered 12. -/
theorem head_errors_on_saved_store :
    (∀ headers : List Header, headers ≠ [] →
      head (savedTable headers) = Except.error ParseDBHeadError.InvalidHash)
    ∧ head (savedTable [hdr5, hdr12, hdr7]) = Except.error ParseDBHeadError.InvalidHash
    ∧ head (savedTable []) = Except.ok none := by
  refine ⟨?_, by decide, rfl⟩
  intro headers hne
  have hne2 : savedTable headers ≠ [] := by
    rcases headers with _ | ⟨hh, tl⟩
    · exact absurd rfl hne
    · have hsv : save_header [] hh = [dbHeaderOfHeader hh] := rfl
      have hlen := length_le_foldl_save tl [dbHeaderOfHeader hh]
      have hpos : 0 < (savedTable (hh :: tl)).length := by
        simp only [savedTable, List.foldl_cons, hsv]
        exact lt_of_lt_of_le (by simp) hlen
      exact List.ne_nil_of_length_pos hpos
  cases hbr : bestRow (savedTable headers) with
  | none => exact absurd ((bestRow_eq_none_iff _).mp hbr) hne2
  | some row =>
    rcases mem_foldl_save headers [] (bestRow_mem hbr) with hin | ⟨h0, hh0, hrow⟩
    · exact absurd hin (List.not_mem_nil row)
    · rw [head_eval hbr, hrow]
      rfl

/-- Witness: `head_errors_on_saved_store` at a store holding one saved
header. -/
theorem head_errors_on_saved_store_witness :
    head (savedTable [hdr12]) = Except.error ParseDBHeadError.InvalidHash :=
  head_errors_on_saved_store.1 [hdr12] (by decide)

/-- Witness: `narrowing_failure_aborts_only` at a block whose `gas_used` is
2^64 — the conversion aborts. -/
theorem narrowing_failure_aborts_only_witness :
    Header.tryFromBlock { sampleBlock with gas_used := 2 ^ 64 } = none :=
  (narrowing_failure_aborts_only { sampleBlock with gas_used := 2 ^ 64 }
      1 4 8 12 100 14 15 rfl rfl rfl rfl rfl rfl rfl).1
    (Or.inr (Or.inr (Or.inl (Nat.le_refl _))))

/-- Witness: `missing_mandatory_first_error` at a block missing only `size` —
the conversion returns `MissingSize`. -/
theorem missing_mandatory_first_error_witness :
    Header.tryFromBlock { sampleBlock with size := none, base_fee_per_gas := none }
      = some (Except.error InvalidBlockError.MissingSize) :=
  missing_mandatory_first_error
    { sampleBlock with size := none, base_fee_per_gas := none }
    InvalidBlockError.MissingSize
    (fun _ hv => nomatch hv) (fun _ hv => nomatch hv) (by decide)

/-- Witness: `wellformed_block_validates` at `sampleBlock` — conversion
succeeds with every field copied. -/
theorem wellformed_block_validates_witness :
    Header.tryFromBlock sampleBlock = some (Except.ok sampleHeader) :=
  wellformed_block_validates sampleBlock 1 4 8 12 100 14 15 rfl rfl rfl rfl rfl rfl rfl
    (fun v hv => by injection hv with h; cases h; decide)
    (by decide) (by decide) (by decide) (by decide)

/-- Witness: `save_header_idempotent` on a table already holding the row of
`sampleHeader`. -/
theorem save_header_idempotent_witness :
    save_header [dbHeaderOfHeader sampleHeader] sampleHeader
      = [dbHeaderOfHeader sampleHeader] :=
  (save_header_idempotent.1 [dbHeaderOfHeader sampleHeader] sampleHeader
    ⟨dbHeaderOfHeader sampleHeader, List.mem_singleton.mpr rfl, rfl⟩).1

/-- Witness: `basefee_optional_passthrough` at `sampleBlock`. -/
theorem basefee_optional_passthrough_witness :
    Header.tryFromBlock sampleBlock ≠ some (Except.error InvalidBlockError.MissingHash) :=
  (basefee_optional_passthrough sampleBlock 1 4 8 12 100 14 15
      rfl rfl rfl rfl rfl rfl rfl).1 InvalidBlockError.MissingHash

end Indexer
